import Mathlib

/-!
Verification development for the cipla_dms compliance workflow engine
(backend/apps: requests, audit, auth, documents).

The Python source is shallowly embedded: Django model rows become Lean
structures, each REST view's body becomes a pure function from a small
database state to a result paired with the new state, and every guard,
field assignment and audit append is translated in source order.
Database writes performed by a view are additionally exposed as an
explicit list of steps so that partial commits (a view not wrapped in
`transaction.atomic`) can be reasoned about.
-/

/-- Request.status choices (apps/requests/models.py). -/
inductive RequestStatus
| pending | sentBack | approved | issued | returned | rejected | completed
deriving DecidableEq, Repr

/-- Request.request_type choices (apps/requests/models.py). -/
inductive RequestType
| storage | withdrawal | destruction
deriving DecidableEq, Repr

/-- Crate.status choices (apps/documents/models.py). -/
inductive CrateStatus
| active | withdrawn | archived | destroyed
deriving DecidableEq, Repr

/-- Display string of a request status, as stored in the CharField. -/
def statusName : RequestStatus → String
| .pending => "Pending"
| .sentBack => "Sent Back"
| .approved => "Approved"
| .issued => "Issued"
| .returned => "Returned"
| .rejected => "Rejected"
| .completed => "Completed"

/-- Display string of a request type, as stored in the CharField. -/
def typeName : RequestType → String
| .storage => "Storage"
| .withdrawal => "Withdrawal"
| .destruction => "Destruction"

/-- Display string of a crate status, as stored in the CharField. -/
def crateStatusName : CrateStatus → String
| .active => "Active"
| .withdrawn => "Withdrawn"
| .archived => "Archived"
| .destroyed => "Destroyed"

/-- One row of the crates table, restricted to the fields the workflow
views read or write (apps/documents/models.py, class Crate). -/
structure CrateRow where
  id : Nat
  status : CrateStatus
  storage : Option Nat
deriving DecidableEq, Repr

/-- One row of the requests table (apps/requests/models.py, class Request),
with users and datetimes as numeric identifiers. -/
structure RequestRow where
  id : Nat
  request_type : RequestType
  status : RequestStatus
  approved_by : Option Nat
  approval_date : Option Nat
  allocated_by : Option Nat
  allocation_date : Option Nat
  issued_by : Option Nat
  issue_date : Option Nat
  return_date : Option Nat
  withdrawn_by : Option Nat
  expected_return_date : Option Nat
  full_withdrawal : Bool
  purpose : String
deriving DecidableEq, Repr

/-- AuditTrail.action choices (apps/audit/models.py) together with the
value 'Sent Back' that send_back_request stores through log_audit_event. -/
inductive AuditAction
| createdA | updatedA | deletedA | viewedA | approvedA | rejectedA
| issuedA | returnedA | allocatedA | sentBackA
deriving DecidableEq, Repr

/-- One row of the audit_trail table (apps/audit/models.py). -/
structure AuditRow where
  user : Option Nat
  action : AuditAction
  request_id : Option Nat
  storage_id : Option Nat
  crate_id : Option Nat
  message : String
deriving DecidableEq, Repr

/-- One row of the sendbacks table (apps/requests/models.py, class SendBack). -/
structure SendBackRow where
  request_id : Nat
  reason : String
  sendback_type : String
  created_by : Option Nat
deriving DecidableEq, Repr

/-- The authenticated actor performing a view call (request.user). -/
structure Actor where
  id : Nat
  full_name : String
deriving DecidableEq, Repr

/-- Database state seen by the per-request workflow views: the request
addressed by the URL pk, its crate, and the tables the views append to.
`signatures` is the digital_signatures table; no workflow view in
apps/requests/views.py ever inserts into it (DigitalSignature.create_signature
has no caller), so it is carried through unchanged. -/
structure Db where
  req : RequestRow
  crate : CrateRow
  audits : List AuditRow
  sendbacks : List SendBackRow
  signatures : List String
  storages : List Nat
deriving DecidableEq, Repr

/-- Result of a view call: HTTP 200/201 success, 400 with a domain error
message, or 404. -/
inductive ViewResult
| ok
| badRequest (msg : String)
| notFound (msg : String)
deriving DecidableEq, Repr

/-- Run a list of database writes in order. -/
def runSteps (steps : List (Db → Db)) (db : Db) : Db :=
  steps.foldl (fun d f => f d) db

/-- Run only the first `n` writes: the state left behind when execution is
interrupted after `n` of the view's writes have committed. -/
def partialRun (steps : List (Db → Db)) (n : Nat) (db : Db) : Db :=
  runSteps (steps.take n) db

/-- log_request_approved (apps/audit/utils.py). -/
def log_request_approved (actor : Actor) (req : RequestRow) (crateId : Nat) : AuditRow :=
  { user := some actor.id, action := .approvedA, request_id := some req.id,
    storage_id := none, crate_id := some crateId,
    message := typeName req.request_type ++ " request #" ++ toString req.id ++
      " approved by " ++ actor.full_name }

/-- log_request_rejected (apps/audit/utils.py). -/
def log_request_rejected (actor : Actor) (req : RequestRow) (reason : String)
    (crateId : Nat) : AuditRow :=
  { user := some actor.id, action := .rejectedA, request_id := some req.id,
    storage_id := none, crate_id := some crateId,
    message := typeName req.request_type ++ " request #" ++ toString req.id ++
      " rejected. Reason: " ++ reason }

/-- log_storage_allocated (apps/audit/utils.py). -/
def log_storage_allocated (actor : Actor) (req : RequestRow) (storageId : Nat)
    (crateId : Nat) : AuditRow :=
  { user := some actor.id, action := .allocatedA, request_id := some req.id,
    storage_id := some storageId, crate_id := some crateId,
    message := "Storage allocated for Crate #" ++ toString crateId }

/-- log_document_issued (apps/audit/utils.py). -/
def log_document_issued (actor : Actor) (req : RequestRow) (crateId : Nat) : AuditRow :=
  { user := some actor.id, action := .issuedA, request_id := some req.id,
    storage_id := none, crate_id := some crateId,
    message := "Documents from Crate #" ++ toString crateId ++ " issued" }

/-- log_document_returned (apps/audit/utils.py). -/
def log_document_returned (actor : Actor) (req : RequestRow) (crateId : Nat) : AuditRow :=
  { user := some actor.id, action := .returnedA, request_id := some req.id,
    storage_id := none, crate_id := some crateId,
    message := "Documents from Crate #" ++ toString crateId ++ " returned" }

/-- log_crate_destroyed (apps/audit/utils.py): destruction is recorded with
action 'Deleted' and no request id. -/
def log_crate_destroyed (actor : Actor) (crateId : Nat) : AuditRow :=
  { user := some actor.id, action := .deletedA, request_id := none,
    storage_id := none, crate_id := some crateId,
    message := "Crate #" ++ toString crateId ++ " permanently destroyed" }

/-- log_request_created (apps/audit/utils.py). -/
def log_request_created (actor : Actor) (req : RequestRow) (crateId : Nat) : AuditRow :=
  { user := some actor.id, action := .createdA, request_id := some req.id,
    storage_id := none, crate_id := some crateId,
    message := typeName req.request_type ++ " request #" ++ toString req.id ++
      " created for Crate #" ++ toString crateId }

/-- Database writes of approve_request (apps/requests/views.py, lines 146-151):
save the request with status Approved, then append the approval audit entry. -/
def approveSteps (actor : Actor) (now : Nat) : List (Db → Db) :=
  [fun db => { db with req := { db.req with
      status := .approved, approved_by := some actor.id, approval_date := some now } },
   fun db => { db with audits :=
      db.audits ++ [log_request_approved actor db.req db.crate.id] }]

/-- approve_request (apps/requests/views.py): guard `status == 'Pending'`,
then the writes of `approveSteps`. The view body is not wrapped in
transaction.atomic. -/
def approve_request (actor : Actor) (now : Nat) (db : Db) : ViewResult × Db :=
  if db.req.status ≠ .pending then
    (.badRequest ("Request is not in pending state (current status: " ++
      statusName db.req.status ++ ")"), db)
  else
    (.ok, runSteps (approveSteps actor now) db)

/-- Database writes of reject_request (apps/requests/views.py, lines 269-298):
when the request is a Withdrawal whose crate is Withdrawn, first restore the
crate to Active and log that; then save the request as Rejected, create the
SendBack row, and append the rejection audit entry. -/
def rejectSteps (actor : Actor) (reason : String) (db0 : Db) : List (Db → Db) :=
  (if db0.req.request_type = .withdrawal ∧ db0.crate.status = .withdrawn then
    [fun db => { db with crate := { db.crate with status := .active } },
     fun db => { db with audits := db.audits ++
        [{ user := some actor.id, action := .updatedA,
           request_id := some db.req.id, storage_id := none,
           crate_id := some db.crate.id,
           message := "Crate #" ++ toString db.crate.id ++
             " status restored to Active after withdrawal request #" ++
             toString db.req.id ++ " was rejected" }] }]
  else []) ++
  [fun db => { db with req := { db.req with status := .rejected } },
   fun db => { db with sendbacks := db.sendbacks ++
      [{ request_id := db.req.id, reason := reason,
         sendback_type := "Change Request", created_by := some actor.id }] },
   fun db => { db with audits := db.audits ++
      [log_request_rejected actor db.req reason db.crate.id] }]

/-- reject_request (apps/requests/views.py): guard
`status in ['Pending', 'Sent Back']`, then the writes of `rejectSteps`.
Not wrapped in transaction.atomic. -/
def reject_request (actor : Actor) (reason : String) (db : Db) : ViewResult × Db :=
  if ¬ (db.req.status = .pending ∨ db.req.status = .sentBack) then
    (.badRequest ("Request cannot be rejected (current status: " ++
      statusName db.req.status ++
      "). Only Pending or Sent Back requests can be rejected."), db)
  else
    (.ok, runSteps (rejectSteps actor reason db) db)

/-- Database writes of send_back_request (apps/requests/views.py, lines
338-358): save the request as Sent Back, create the SendBack row of type
'Change Request', and append the audit entry with action 'Sent Back'. -/
def sendBackSteps (actor : Actor) (reason : String) : List (Db → Db) :=
  [fun db => { db with req := { db.req with status := .sentBack } },
   fun db => { db with sendbacks := db.sendbacks ++
      [{ request_id := db.req.id, reason := reason,
         sendback_type := "Change Request", created_by := some actor.id }] },
   fun db => { db with audits := db.audits ++
      [{ user := some actor.id, action := .sentBackA,
         request_id := some db.req.id, storage_id := none,
         crate_id := some db.crate.id,
         message := typeName db.req.request_type ++ " request #" ++
           toString db.req.id ++ " sent back for changes. Reason: " ++ reason }] }]

/-- send_back_request (apps/requests/views.py): guard
`status in ['Pending', 'Sent Back']`, then the writes of `sendBackSteps`.
Not wrapped in transaction.atomic. -/
def send_back_request (actor : Actor) (reason : String) (db : Db) : ViewResult × Db :=
  if ¬ (db.req.status = .pending ∨ db.req.status = .sentBack) then
    (.badRequest ("Request cannot be sent back (current status: " ++
      statusName db.req.status ++
      "). Only Pending or Sent Back requests can be sent back."), db)
  else
    (.ok, runSteps (sendBackSteps actor reason) db)

/-- Database writes of allocate_storage (apps/requests/views.py, lines
404-415): save the crate with the storage reference, save the request as
Completed, then append the allocation audit entry. -/
def allocateSteps (actor : Actor) (now : Nat) (storageId : Nat) : List (Db → Db) :=
  [fun db => { db with crate := { db.crate with storage := some storageId } },
   fun db => { db with req := { db.req with
      allocation_date := some now, allocated_by := some actor.id,
      status := .completed } },
   fun db => { db with audits := db.audits ++
      [log_storage_allocated actor db.req storageId db.crate.id] }]

/-- allocate_storage (apps/requests/views.py): guard `status == 'Approved'`,
look up the storage row, then the writes of `allocateSteps`. Not wrapped in
transaction.atomic. -/
def allocate_storage (actor : Actor) (now : Nat) (storageId : Nat) (db : Db) :
    ViewResult × Db :=
  if db.req.status ≠ .approved then
    (.badRequest "Request must be approved before storage allocation", db)
  else if storageId ∉ db.storages then
    (.notFound "Storage location not found", db)
  else
    (.ok, runSteps (allocateSteps actor now storageId) db)

/-- Database writes of issue_documents (apps/requests/views.py, lines
538-549): save the request as Issued, save the crate as Withdrawn, then
append the issue audit entry. -/
def issueSteps (actor : Actor) (now : Nat) : List (Db → Db) :=
  [fun db => { db with req := { db.req with
      status := .issued, issue_date := some now, issued_by := some actor.id } },
   fun db => { db with crate := { db.crate with status := .withdrawn } },
   fun db => { db with audits := db.audits ++
      [log_document_issued actor db.req db.crate.id] }]

/-- issue_documents (apps/requests/views.py): guards `request_type ==
'Withdrawal'` and `status == 'Approved'`, then the writes of `issueSteps`.
Not wrapped in transaction.atomic. -/
def issue_documents (actor : Actor) (now : Nat) (db : Db) : ViewResult × Db :=
  if db.req.request_type ≠ .withdrawal then
    (.badRequest "This endpoint is only for withdrawal requests", db)
  else if db.req.status ≠ .approved then
    (.badRequest "Request must be approved before issuing documents", db)
  else
    (.ok, runSteps (issueSteps actor now) db)

/-- Database writes of return_documents (apps/requests/views.py, lines
600-632): save the request as Returned, save the crate as Active with the
destination storage, optionally create a 'Return Note' SendBack row, then
append the return audit entry and the relocation audit entry. -/
def returnSteps (actor : Actor) (now : Nat) (storageId : Nat) (reason : String) :
    List (Db → Db) :=
  [fun db => { db with req := { db.req with
      status := .returned, return_date := some now } },
   fun db => { db with crate := { db.crate with
      status := .active, storage := some storageId } }] ++
  (if reason ≠ "" then
    [fun db => { db with sendbacks := db.sendbacks ++
      [{ request_id := db.req.id, reason := reason,
         sendback_type := "Return Note", created_by := some actor.id }] }]
  else []) ++
  [fun db => { db with audits := db.audits ++
      [log_document_returned actor db.req db.crate.id] },
   fun db => { db with audits := db.audits ++
      [{ user := some actor.id, action := .allocatedA, request_id := none,
         storage_id := some storageId, crate_id := some db.crate.id,
         message := "Crate #" ++ toString db.crate.id ++
           " storage updated on return" }] }]

/-- return_documents (apps/requests/views.py): guards `request_type ==
'Withdrawal'` and `status == 'Issued'`, look up the storage row, then the
writes of `returnSteps`. Not wrapped in transaction.atomic. -/
def return_documents (actor : Actor) (now : Nat) (storageId : Nat)
    (reason : String) (db : Db) : ViewResult × Db :=
  if db.req.request_type ≠ .withdrawal then
    (.badRequest "This endpoint is only for withdrawal requests", db)
  else if db.req.status ≠ .issued then
    (.badRequest "Documents have not been issued yet", db)
  else if storageId ∉ db.storages then
    (.notFound "Storage location not found", db)
  else
    (.ok, runSteps (returnSteps actor now storageId reason) db)

/-- Database writes of confirm_destruction (apps/requests/views.py, lines
719-732): save the crate as Destroyed (its storage reference untouched),
save the request as Completed, then append the destruction audit entry. -/
def confirmDestructionSteps (actor : Actor) : List (Db → Db) :=
  [fun db => { db with crate := { db.crate with status := .destroyed } },
   fun db => { db with req := { db.req with status := .completed } },
   fun db => { db with audits := db.audits ++
      [log_crate_destroyed actor db.crate.id] }]

/-- confirm_destruction (apps/requests/views.py): guards `request_type ==
'Destruction'` and `status == 'Approved'`, then the writes of
`confirmDestructionSteps`. Not wrapped in transaction.atomic. -/
def confirm_destruction (actor : Actor) (db : Db) : ViewResult × Db :=
  if db.req.request_type ≠ .destruction then
    (.badRequest "This endpoint is only for destruction requests", db)
  else if db.req.status ≠ .approved then
    (.badRequest "Request must be approved before destruction", db)
  else
    (.ok, runSteps (confirmDestructionSteps actor) db)

/-- Database state seen by create_withdrawal_request: the target crate, the
requests table it inserts into, and the audit and signature tables. -/
structure CreateDb where
  crate : CrateRow
  reqs : List RequestRow
  audits : List AuditRow
  signatures : List String
deriving DecidableEq, Repr

/-- Payload of create_withdrawal_request accepted by
WithdrawalRequestCreateSerializer. -/
structure WithdrawalInput where
  purpose : String
  full_withdrawal : Bool
  expected_return_date : Option Nat
deriving DecidableEq, Repr

/-- create_withdrawal_request (apps/requests/views.py, lines 438-510): guard
`crate.status in ['Active', 'Archived']`, then — inside one
transaction.atomic block — create the Pending withdrawal request, set the
crate status to Withdrawn, and append the creation and crate-update audit
entries. `newId` is the id the database assigns to the inserted request. -/
def create_withdrawal_request (actor : Actor) (newId : Nat)
    (inp : WithdrawalInput) (db : CreateDb) : ViewResult × CreateDb :=
  if ¬ (db.crate.status = .active ∨ db.crate.status = .archived) then
    (.badRequest ("Crate cannot be withdrawn (current status: " ++
      crateStatusName db.crate.status ++
      "). Only Active or Archived crates can be withdrawn."), db)
  else
    let newReq : RequestRow :=
      { id := newId, request_type := .withdrawal, status := .pending,
        approved_by := none, approval_date := none,
        allocated_by := none, allocation_date := none,
        issued_by := none, issue_date := none, return_date := none,
        withdrawn_by := some actor.id,
        expected_return_date := inp.expected_return_date,
        full_withdrawal := inp.full_withdrawal, purpose := inp.purpose }
    let oldStatus := db.crate.status
    (.ok,
      { db with
        reqs := db.reqs ++ [newReq],
        crate := { db.crate with status := .withdrawn },
        audits := db.audits ++
          [log_request_created actor newReq db.crate.id,
           { user := some actor.id, action := .updatedA,
             request_id := some newId, storage_id := none,
             crate_id := some db.crate.id,
             message := "Crate #" ++ toString db.crate.id ++
               " status changed from " ++ crateStatusName oldStatus ++
               " to Withdrawn due to withdrawal request #" ++ toString newId }] })

/-- Whether approve_request wraps its writes in transaction.atomic: it does
not (apps/requests/views.py, lines 129-163 contain no atomic block). -/
def approveWrapsWrites : Bool := false

/-- Whether reject_request wraps its writes in transaction.atomic: it does
not (lines 251-315). -/
def rejectWrapsWrites : Bool := false

/-- Whether send_back_request wraps its writes in transaction.atomic: it
does not (lines 321-375). -/
def sendBackWrapsWrites : Bool := false

/-- Whether allocate_storage wraps its writes in transaction.atomic: it does
not (lines 381-432). -/
def allocateWrapsWrites : Bool := false

/-- Whether issue_documents wraps its writes in transaction.atomic: it does
not (lines 516-562). -/
def issueWrapsWrites : Bool := false

/-- Whether return_documents wraps its writes in transaction.atomic: it does
not (lines 568-649). -/
def returnWrapsWrites : Bool := false

/-- Whether confirm_destruction wraps its writes in transaction.atomic: it
does not (lines 702-744). -/
def confirmDestructionWrapsWrites : Bool := false

/-- Whether create_withdrawal_request wraps its writes in
transaction.atomic: it does (line 457, `with transaction.atomic():`). -/
def createWithdrawalWrapsWrites : Bool := true

/-- The database states in which an interrupted execution of a view can
leave the store. Under transaction.atomic either nothing or everything
commits; without it, execution interrupted after the n-th write leaves the
first n writes committed. -/
def commitStates (wrapped : Bool) (steps : List (Db → Db)) (db : Db) : List Db :=
  if wrapped then [db, runSteps steps db]
  else (List.range (steps.length + 1)).map (fun n => partialRun steps n db)

/-- Strict byte-lexicographic order on character lists: the order in which a
varchar column compares values when Django's Max aggregate picks the largest
barcode. -/
def lexLt : List Char → List Char → Bool
| [], [] => false
| [], _ :: _ => true
| _ :: _, [] => false
| a :: as, b :: bs => if a < b then true else if b < a then false else lexLt as bs

/-- Django's Max aggregate over a list of varchar values: none on an empty
set of rows, otherwise the lexicographically greatest value. -/
def maxAgg : List (List Char) → Option (List Char)
| [] => none
| b :: bs => some (bs.foldl (fun acc x => if lexLt acc x then x else acc) b)

/-- The character of a decimal digit. -/
def digitChar (d : Nat) : Char := Char.ofNat (48 + d)

/-- Fixed-width decimal rendering, most significant digit first: the
result of Python's format specifier 0«len»d for values below 10^len. -/
def digitsFix : Nat → Nat → List Char
| 0, _ => []
| len + 1, n => digitChar (n / 10 ^ len) :: digitsFix len (n % 10 ^ len)

/-- Decimal rendering of a natural number without leading zeros: Python's
str() of a non-negative int. -/
def natRepr (n : Nat) : List Char :=
  if _h : n < 10 then [digitChar n]
  else natRepr (n / 10) ++ [digitChar (n % 10)]
decreasing_by exact Nat.div_lt_self (by omega) (by omega)

/-- Python's format specifier 05d: zero-padded to five digits, wider only
when the value needs more than five digits. -/
def format05 (n : Nat) : List Char :=
  if n < 100000 then digitsFix 5 n else natRepr n

/-- Whether a character is a decimal digit. -/
def isDigitCh (c : Char) : Bool := 48 ≤ c.toNat && c.toNat ≤ 57

/-- Numeric value of a digit character. -/
def digitVal (c : Char) : Nat := c.toNat - 48

/-- Accumulating decimal parse of a digit string. -/
def parseVal (l : List Char) (acc : Nat) : Nat :=
  l.foldl (fun a c => 10 * a + digitVal c) acc

/-- Python's int() restricted to plain digit strings: the parsed value, or
none (a ValueError) when the string is empty or holds a non-digit. -/
def pyInt? (l : List Char) : Option Nat :=
  if !l.isEmpty && l.all isDigitCh then some (parseVal l 0) else none

/-- Python's str.split on a single separator character. -/
def splitCh (sep : Char) : List Char → List (List Char)
| [] => [[]]
| c :: cs =>
  let r := splitCh sep cs
  if c = sep then [] :: r
  else
    match r with
    | [] => [[c]]
    | h :: t => (c :: h) :: t

/-- Python's negative index -1 on the (never empty) result of str.split. -/
def lastSeg (l : List (List Char)) : List Char := l.getLastD []

/-- Whether `p` is an initial segment of `l`: Python's str.startswith. -/
def startsWith : (p l : List Char) → Bool
| [], _ => true
| _ :: _, [] => false
| a :: p, b :: l => a = b && startsWith p l

/-- One row of the crates table as the Barcode Sequencer sees it
(apps/documents/models.py, class Crate): the organisational foreign keys,
the display names those foreign keys resolve to when the barcode text is
built, and the barcode itself ([] is Django's empty-string default for a
still-unassigned CharField). -/
structure BCrate where
  pk : Option Nat
  barcode : List Char
  unit : Nat
  department : Nat
  section_id : Option Nat
  unit_code : List Char
  department_name : List Char
  section_name : List Char
deriving DecidableEq, Repr

/-- Name cleaning in Crate.save: spaces and hyphens removed, truncated to
ten characters. -/
def cleanName (s : List Char) : List Char :=
  (s.filter (fun c => c ≠ ' ' && c ≠ '-')).take 10

/-- The barcode text before the sequence number, as Crate.save builds it:
unit_code/dept_name_clean[/section_name_clean]/year, the section segment
present only when the cleaned section name is non-empty. -/
def barcodeStem (c : BCrate) (year : Nat) : List Char :=
  let dept := cleanName c.department_name
  let sect := match c.section_id with
    | some _ => cleanName c.section_name
    | none => []
  if sect ≠ [] then
    c.unit_code ++ '/' :: dept ++ '/' :: sect ++ '/' :: natRepr year
  else
    c.unit_code ++ '/' :: dept ++ '/' :: natRepr year

/-- The next sequence number in Crate.save: the lexicographic Max of the
matching barcodes, its last '/'-separated segment parsed by int(), plus
one; 1 when there is no matching row or the parse raises ValueError. -/
def nextSequence (stem : List Char) (c : BCrate) (db : List BCrate) : Nat :=
  let matching := db.filter (fun x =>
    x.unit = c.unit && x.department = c.department && x.section_id = c.section_id &&
    startsWith (stem ++ ['/']) x.barcode)
  match maxAgg (matching.map (fun x => x.barcode)) with
  | none => 1
  | some mb =>
    match pyInt? (lastSeg (splitCh '/' mb)) with
    | some lastNumber => lastNumber + 1
    | none => 1

/-- Crate.save (apps/documents/models.py, lines 94-156). A crate without a
barcode and without a primary key is inserted (the transient TEMP
placeholder row is excluded from the aggregate by `exclude(id=self.id)` and
is overwritten before the transaction ends, so only the final row is
modelled), with barcode stem/sequence where the sequence is `nextSequence`
zero-padded to five digits. Any crate that already has a barcode is saved
with all its fields, the barcode included, untouched by this method. -/
def crate_save (year : Nat) (newPk : Nat) (db : List BCrate) (c : BCrate) :
    List BCrate × BCrate :=
  if c.barcode = [] ∧ c.pk = none then
    let stem := barcodeStem c year
    let c' := { c with pk := some newPk,
                       barcode := stem ++ '/' :: format05 (nextSequence stem c db) }
    (db ++ [c'], c')
  else
    match c.pk with
    | some _ => (db.map (fun x => if x.pk = c.pk then c else x), c)
    | none =>
      let c' := { c with pk := some newPk }
      (db ++ [c'], c')

/-- The assigned barcode for a given stem and sequence number. -/
def mkBarcode (stem : List Char) (i : Nat) : List Char :=
  stem ++ '/' :: format05 i

/-- Whether a stored crate belongs to the same (unit, department, section)
tuple as the crate being saved — the equality part of the filter in
Crate.save. -/
def sameTuple (x c : BCrate) : Prop :=
  x.unit = c.unit ∧ x.department = c.department ∧ x.section_id = c.section_id

/-- One row of the digital_signatures table
(apps/auth/models_signature.py, class DigitalSignature), with the signed
payload as a string-valued JSON object and datetimes as numeric values.
signature_timestamp is DateTimeField(auto_now_add=True): it is None
(modelled as none) on a freshly constructed instance and is assigned by
Django only inside super().save(). The sha256 hexdigest is an explicit
parameter `h` of every function that hashes, so the model is the source
code specialised to an arbitrary one-way hash. -/
structure SigRecord where
  pk : Option Nat
  signer_username : String
  signer_full_name : String
  signer_role : String
  signer_email : String
  signature_type : String
  signature_purpose : String
  signature_timestamp : Option Nat
  signed_model : String
  signed_record_id : Nat
  signed_record_description : String
  data_hash : String
  signature_data : List (String × String)
  signature_hash : String
  is_valid : Bool
  invalidation_reason : String
deriving DecidableEq, Repr

/-- Decimal rendering as a string. -/
def natS (n : Nat) : String := String.mk (natRepr n)

/-- Python's f-string rendering of the signature_timestamp attribute: the
literal string None while the auto_now_add field is still unset, the
rendered datetime once it is. -/
def strOfTimestamp : Option Nat → String
| none => "None"
| some t => natS t

/-- The pipe-joined signature string hashed by DigitalSignature.save and
recomputed by verify_integrity (models_signature.py, lines 128-130 and
194-196). -/
def sigString (r : SigRecord) : String :=
  r.signer_username ++ "|" ++ r.signer_full_name ++ "|" ++ r.signer_role ++ "|" ++
  r.signature_type ++ "|" ++ strOfTimestamp r.signature_timestamp ++ "|" ++
  r.signed_model ++ "|" ++ natS r.signed_record_id ++ "|" ++ r.data_hash

/-- Insertion into a key-sorted association list. -/
def insertSorted (kv : String × String) : List (String × String) → List (String × String)
| [] => [kv]
| h :: t => if lexLt kv.1.data h.1.data then kv :: h :: t else h :: insertSorted kv t

/-- Sorting an association list by key. -/
def sortKeys (l : List (String × String)) : List (String × String) :=
  l.foldr insertSorted []

/-- Rendering of the key-value pairs of a JSON object. -/
def renderPairs : List (String × String) → String
| [] => ""
| [kv] => "\"" ++ kv.1 ++ "\": \"" ++ kv.2 ++ "\""
| kv :: t => "\"" ++ kv.1 ++ "\": \"" ++ kv.2 ++ "\", " ++ renderPairs t

/-- json.dumps(signed_data, sort_keys=True): the canonical, key-order
independent serialization of the payload. -/
def dumps (l : List (String × String)) : String :=
  "\x7b" ++ renderPairs (sortKeys l) ++ "\x7d"

/-- DigitalSignature.save (models_signature.py, lines 120-133): an update
attempt (a record that already has a primary key) raises; otherwise the
signature hash is computed from the record's current (pre-save) fields —
in particular from its still-unset auto_now_add signature_timestamp — and
only then does super().save() run, assigning the fresh primary key and, via
the auto_now_add pre_save hook, the timestamp `now` that is persisted. -/
def signature_save (h : String → String) (newPk now : Nat) (r : SigRecord) :
    Except String SigRecord :=
  if r.pk.isSome then
    .error "Digital signatures are immutable and cannot be modified after creation"
  else
    .ok { r with signature_hash := h (sigString r), pk := some newPk,
                 signature_timestamp := some now }

/-- The signing user as create_signature reads it: username, full name,
role name (if any) and email. -/
structure SUser where
  username : String
  full_name : String
  role : Option String
  email : String
deriving DecidableEq, Repr

/-- DigitalSignature.create_signature (models_signature.py, lines 135-177):
hash the canonical serialization of the payload, snapshot the signer, and
save. The constructor call does not set signature_timestamp (the attribute
is None until save); `ts` is the timestamp auto_now_add assigns inside the
save and `newPk` the primary key the insert assigns. -/
def create_signature (h : String → String) (user : SUser)
    (stype purpose smodel : String) (srid : Nat)
    (sdata : List (String × String)) (desc : String) (ts newPk : Nat) :
    Except String SigRecord :=
  let dh := h (dumps sdata)
  signature_save h newPk ts
    { pk := none,
      signer_username := user.username,
      signer_full_name := user.full_name,
      signer_role := user.role.getD "No Role",
      signer_email := user.email,
      signature_type := stype,
      signature_purpose := purpose,
      signature_timestamp := none,
      signed_model := smodel,
      signed_record_id := srid,
      signed_record_description := desc,
      data_hash := dh,
      signature_data := sdata,
      signature_hash := "",
      is_valid := true,
      invalidation_reason := "" }

/-- DigitalSignature.verify_integrity (models_signature.py, lines 179-205):
recompute the data hash from the stored payload and the signature hash from
the stored fields, compare each against its stored value, then check the
is_valid flag. -/
def verify_integrity (h : String → String) (r : SigRecord) : Bool × String :=
  if h (dumps r.signature_data) ≠ r.data_hash then
    (false, "Data hash mismatch - signature data has been tampered with")
  else if h (sigString r) ≠ r.signature_hash then
    (false, "Signature hash mismatch - signature has been altered")
  else if r.is_valid = false then
    (false, "Signature invalidated: " ++ r.invalidation_reason)
  else
    (true, "Signature is valid and intact")

/-- One row of the audit_trail table keyed by primary key, as
AuditTrail.save and AuditTrail.delete see it. -/
structure AuditTrailRec where
  pk : Option Nat
  row : AuditRow
deriving DecidableEq, Repr

/-- AuditTrail.save (apps/audit/models.py, lines 70-77): a record that
already has a primary key raises; only creation is allowed. -/
def audit_trail_save (newPk : Nat) (tbl : List AuditTrailRec)
    (a : AuditTrailRec) : Except String (List AuditTrailRec) :=
  if a.pk.isSome then
    .error "Audit trail records cannot be modified once created (21 CFR Part 11 compliance)"
  else
    .ok (tbl ++ [{ a with pk := some newPk }])

/-- AuditTrail.delete (apps/audit/models.py, lines 79-83): every delete
attempt raises. -/
def audit_trail_delete (_tbl : List AuditTrailRec) (_a : AuditTrailRec) :
    Except String (List AuditTrailRec) :=
  .error "Audit trail records cannot be deleted (21 CFR Part 11 compliance)"

/-- Table-level DigitalSignature.save: the model-layer save applied against
the digital_signatures table; an update attempt raises before anything is
written, creation inserts the hashed row. -/
def signature_table_save (h : String → String) (newPk now : Nat)
    (tbl : List SigRecord) (r : SigRecord) : Except String (List SigRecord) :=
  match signature_save h newPk now r with
  | .error e => .error e
  | .ok r' => .ok (tbl ++ [r'])

/-- Deleting a DigitalSignature row. The class overrides save but defines
no delete method (apps/auth/models_signature.py), so the inherited
django.db.models.Model.delete runs: it removes the row and raises
nothing. -/
def signature_delete (tbl : List SigRecord) (r : SigRecord) :
    Except String (List SigRecord) :=
  .ok (tbl.filter (fun x => x.pk != r.pk))

/-- One row of the roles table (apps/auth/models.py, class Role), the
privileges carried as (codename, is_active) pairs. -/
structure Role where
  role_name : String
  privileges : List (String × Bool)
deriving DecidableEq, Repr

/-- Role.get_privilege_codenames (apps/auth/models.py, lines 61-63): the
codenames of the role's active privileges. -/
def get_privilege_codenames (r : Role) : List String :=
  (r.privileges.filter (fun p => p.2)).map (fun p => p.1)

/-- The user object has_privilege inspects: request.user may be an
anonymous user (is_authenticated false) or missing (the none case). -/
structure AuthUser where
  is_authenticated : Bool
  is_superuser : Bool
  role : Option Role
deriving DecidableEq, Repr

/-- has_privilege (apps/auth/permissions.py, lines 25-41): false for a
missing or unauthenticated user, true for a superuser, otherwise membership
of the codename in the user's role's privilege codenames; false without a
role. A pure function of its arguments. -/
def has_privilege (user : Option AuthUser) (privilege_codename : String) : Bool :=
  match user with
  | none => false
  | some u =>
    if !u.is_authenticated then false
    else if u.is_superuser then true
    else
      match u.role with
      | some r => (get_privilege_codenames r).contains privilege_codename
      | none => false

/-- A concrete request row used by concrete evaluations. -/
def baseReq : RequestRow :=
  { id := 7, request_type := .destruction, status := .approved,
    approved_by := none, approval_date := none,
    allocated_by := none, allocation_date := none,
    issued_by := none, issue_date := none, return_date := none,
    withdrawn_by := some 3, expected_return_date := none,
    full_withdrawal := true, purpose := "p" }

/-- A concrete crate row used by concrete evaluations. -/
def baseCrate : CrateRow := { id := 11, status := .active, storage := some 2 }

/-- A concrete workflow database with the given request type, request
status and crate status. -/
def mkDb (t : RequestType) (s : RequestStatus) (cs : CrateStatus) : Db :=
  { req := { baseReq with request_type := t, status := s },
    crate := { baseCrate with status := cs },
    audits := [], sendbacks := [], signatures := [], storages := [5] }

/-- A concrete creation-side database with the given crate status. -/
def mkCDb (cs : CrateStatus) : CreateDb :=
  { crate := { baseCrate with status := cs }, reqs := [], audits := [],
    signatures := [] }

/-- A concrete persisted digital-signature row (primary key assigned). -/
def exSigRecord : SigRecord :=
  { pk := some 4,
    signer_username := "jdoe", signer_full_name := "J Doe",
    signer_role := "Section Head", signer_email := "j@x.io",
    signature_type := "APPROVE", signature_purpose := "approve request",
    signature_timestamp := some 99, signed_model := "Request",
    signed_record_id := 7, signed_record_description := "req 7",
    data_hash := "dh", signature_data := [("status", "Approved")],
    signature_hash := "sh", is_valid := true, invalidation_reason := "" }

/-- A concrete persisted audit-trail row (primary key assigned). -/
def exAuditRec : AuditTrailRec :=
  { pk := some 9,
    row := { user := some 1, action := .approvedA, request_id := some 7,
             storage_id := none, crate_id := some 11, message := "m" } }

/-- A concrete crate about to be saved for the first time: no barcode, no
primary key. -/
def exBCrate : BCrate :=
  { pk := none, barcode := [], unit := 1, department := 2, section_id := some 3,
    unit_code := ['M', 'F', 'G', '0', '1'],
    department_name := ['Q', 'C'],
    section_name := ['L', 'a', 'b', '1'] }

/-- A concrete already-stored crate of the same tuple holding the first
sequence number of the 2025 barcode range. -/
def exBCrateStored : BCrate :=
  { exBCrate with pk := some 1, barcode := mkBarcode (barcodeStem exBCrate 2025) 1 }

/-- A concrete already-stored crate of the same organisational triple but
from the previous year: its barcode carries the 2024 stem, so the
sequencer's startswith filter must ignore it. -/
def exBCratePrior : BCrate :=
  { exBCrate with pk := some 9, barcode := mkBarcode (barcodeStem exBCrate 2024) 7 }

/-- C9: has_privilege returns true for an authenticated superuser;
otherwise it returns true exactly when the actor has a role whose granted
(active) privilege codenames contain the requested codename; it returns
false for a missing or unauthenticated actor. The embedding is a pure
function of the user and codename, so it mutates nothing. -/
theorem C9_has_privilege_characterization (u : Option AuthUser) (c : String) :
    has_privilege u c = true ↔
      ∃ usr, u = some usr ∧ usr.is_authenticated = true ∧
        (usr.is_superuser = true ∨
          ∃ r, usr.role = some r ∧ c ∈ get_privilege_codenames r) := by
  cases u with
  | none => simp [has_privilege]
  | some usr =>
    simp only [has_privilege, Option.some.injEq]
    by_cases ha : usr.is_authenticated
    · by_cases hs : usr.is_superuser
      · simp [ha, hs]
      · cases hr : usr.role with
        | none => simp [ha, hs, hr]
        | some r =>
          simp [ha, hs, hr, List.elem_iff]
    · simp [ha]

/-- C7: confirm_destruction on a Destruction request succeeds exactly when
the request is Approved, and then sets the crate to the terminal Destroyed
state, the request to Completed, and leaves the crate's storage reference
(and every other crate field) unchanged; on any other status it fails with
a domain error and changes nothing. -/
theorem C7_confirm_destruction (actor : Actor) (db : Db)
    (hT : db.req.request_type = .destruction) :
    (db.req.status = .approved →
      (confirm_destruction actor db).1 = .ok ∧
      (confirm_destruction actor db).2.crate.status = .destroyed ∧
      (confirm_destruction actor db).2.req.status = .completed ∧
      (confirm_destruction actor db).2.crate.storage = db.crate.storage ∧
      (confirm_destruction actor db).2.crate.id = db.crate.id) ∧
    (db.req.status ≠ .approved →
      (∃ m, (confirm_destruction actor db).1 = .badRequest m) ∧
      (confirm_destruction actor db).2 = db) := by
  constructor
  · intro hA
    simp [confirm_destruction, hT, hA, runSteps, confirmDestructionSteps]
  · intro hA
    simp [confirm_destruction, hT, hA]

/-- Witness for C7 at a concrete Approved destruction request and at a
concrete Pending one. -/
theorem C7_confirm_destruction_witness :
    (confirm_destruction ⟨1, "A"⟩ (mkDb .destruction .approved .active)).1 = .ok ∧
    (confirm_destruction ⟨1, "A"⟩ (mkDb .destruction .approved .active)).2.crate.status = .destroyed ∧
    (confirm_destruction ⟨1, "A"⟩ (mkDb .destruction .approved .active)).2.crate.storage =
      (mkDb .destruction .approved .active).crate.storage ∧
    (confirm_destruction ⟨1, "A"⟩ (mkDb .destruction .pending .active)).2 =
      mkDb .destruction .pending .active := by
  refine ⟨?_, ?_, ?_, ?_⟩
  · exact ((C7_confirm_destruction ⟨1, "A"⟩ (mkDb .destruction .approved .active) (by decide)).1 (by decide)).1
  · exact ((C7_confirm_destruction ⟨1, "A"⟩ (mkDb .destruction .approved .active) (by decide)).1 (by decide)).2.1
  · exact ((C7_confirm_destruction ⟨1, "A"⟩ (mkDb .destruction .approved .active) (by decide)).1 (by decide)).2.2.2.1
  · exact ((C7_confirm_destruction ⟨1, "A"⟩ (mkDb .destruction .pending .active) (by decide)).2 (by decide)).2

/-- C10: a successful rejection of a Storage or Destruction request leaves
every field of the crate unchanged, sets the request status to Rejected,
and appends exactly one SendBack row and one audit entry; and whenever a
rejection changes the crate at all, the request was a Withdrawal whose
crate was in status Withdrawn. -/
theorem C10_reject_frame (actor : Actor) (reason : String) (db : Db) :
    ((db.req.request_type = .storage ∨ db.req.request_type = .destruction) →
      (db.req.status = .pending ∨ db.req.status = .sentBack) →
      (reject_request actor reason db).1 = .ok ∧
      (reject_request actor reason db).2.crate = db.crate ∧
      (reject_request actor reason db).2.req.status = .rejected ∧
      (∃ sb, (reject_request actor reason db).2.sendbacks = db.sendbacks ++ [sb]) ∧
      (∃ e, (reject_request actor reason db).2.audits = db.audits ++ [e]) ∧
      (reject_request actor reason db).2.signatures = db.signatures) ∧
    ((reject_request actor reason db).2.crate ≠ db.crate →
      db.req.request_type = .withdrawal ∧ db.crate.status = .withdrawn) := by
  constructor
  · intro hTy hSt
    have hW : ¬ (db.req.request_type = .withdrawal ∧ db.crate.status = .withdrawn) := by
      rcases hTy with h | h <;> simp [h]
    simp [reject_request, hSt, runSteps, rejectSteps, hW]
  · intro hC
    by_cases hW : db.req.request_type = .withdrawal ∧ db.crate.status = .withdrawn
    · exact hW
    · exfalso
      apply hC
      by_cases hSt : db.req.status = .pending ∨ db.req.status = .sentBack
      · simp [reject_request, hSt, runSteps, rejectSteps, hW]
      · simp [reject_request, hSt]

/-- Witness for C10 at a concrete pending Storage request whose crate has a
storage reference: the crate is untouched by the rejection. -/
theorem C10_reject_frame_witness :
    (reject_request ⟨1, "A"⟩ "bad" (mkDb .storage .pending .active)).1 = .ok ∧
    (reject_request ⟨1, "A"⟩ "bad" (mkDb .storage .pending .active)).2.crate =
      (mkDb .storage .pending .active).crate := by
  have h := (C10_reject_frame ⟨1, "A"⟩ "bad" (mkDb .storage .pending .active)).1
    (by decide) (by decide)
  exact ⟨h.1, h.2.1⟩

/-- Counterexample to C3 as stated: a request in status Sent Back may NOT
be approved — approve_request guards on status == 'Pending' only, so on a
concrete Sent Back storage request the call fails with a domain error and
leaves the database unchanged, while the claim says Approve succeeds on
Pending or SentBack. -/
theorem C3_counterexample :
    (approve_request ⟨1, "A"⟩ 5 (mkDb .storage .sentBack .active)).1 ≠ .ok ∧
    (approve_request ⟨1, "A"⟩ 5 (mkDb .storage .sentBack .active)).2 =
      mkDb .storage .sentBack .active := by
  constructor
  · decide
  · decide

/-- C3 amended: Approve succeeds exactly on a Pending request; Reject and
SendBack succeed exactly on a Pending or Sent Back request; in every other
status each of the three operations fails with a domain error and leaves
the database unchanged. -/
theorem C3_transition_guards (actor : Actor) (now : Nat) (reason : String) (db : Db) :
    ((approve_request actor now db).1 = .ok ↔ db.req.status = .pending) ∧
    (db.req.status ≠ .pending →
      (∃ m, (approve_request actor now db).1 = .badRequest m) ∧
      (approve_request actor now db).2 = db) ∧
    ((reject_request actor reason db).1 = .ok ↔
      (db.req.status = .pending ∨ db.req.status = .sentBack)) ∧
    (¬ (db.req.status = .pending ∨ db.req.status = .sentBack) →
      (∃ m, (reject_request actor reason db).1 = .badRequest m) ∧
      (reject_request actor reason db).2 = db) ∧
    ((send_back_request actor reason db).1 = .ok ↔
      (db.req.status = .pending ∨ db.req.status = .sentBack)) ∧
    (¬ (db.req.status = .pending ∨ db.req.status = .sentBack) →
      (∃ m, (send_back_request actor reason db).1 = .badRequest m) ∧
      (send_back_request actor reason db).2 = db) := by
  refine ⟨?_, ?_, ?_, ?_, ?_, ?_⟩
  · by_cases hp : db.req.status = .pending <;> simp [approve_request, hp]
  · intro hp; simp [approve_request, hp]
  · by_cases hs : db.req.status = .pending ∨ db.req.status = .sentBack <;>
      simp [reject_request, hs]
  · intro hs; simp [reject_request, hs]
  · by_cases hs : db.req.status = .pending ∨ db.req.status = .sentBack <;>
      simp [send_back_request, hs]
  · intro hs; simp [send_back_request, hs]

/-- Witness for the amended C3 at a concrete Sent Back request: Approve
fails and changes nothing, Reject succeeds. -/
theorem C3_transition_guards_witness :
    (approve_request ⟨1, "A"⟩ 5 (mkDb .storage .sentBack .active)).2 =
      mkDb .storage .sentBack .active ∧
    (reject_request ⟨1, "A"⟩ "r" (mkDb .storage .sentBack .active)).1 = .ok := by
  have h := C3_transition_guards ⟨1, "A"⟩ 5 "r" (mkDb .storage .sentBack .active)
  exact ⟨(h.2.1 (by decide)).2, h.2.2.1.2 (Or.inr (by decide))⟩

/-- Counterexample to C4 as stated: approving a concrete Pending request
succeeds but creates no DigitalSignature row at all — the signature table
is exactly as long as before, not one longer — because
require_digital_signature only re-verifies the password and no view calls
DigitalSignature.create_signature. So the first call does not yield a
Signature/Audit pair. -/
theorem C4_counterexample :
    (approve_request ⟨1, "A"⟩ 5 (mkDb .storage .pending .active)).1 = .ok ∧
    (approve_request ⟨1, "A"⟩ 5 (mkDb .storage .pending .active)).2.signatures.length =
      (mkDb .storage .pending .active).signatures.length ∧
    ¬ ((approve_request ⟨1, "A"⟩ 5 (mkDb .storage .pending .active)).2.signatures.length =
      (mkDb .storage .pending .active).signatures.length + 1) := by
  refine ⟨by decide, by decide, by decide⟩

/-- C4 amended: approving a Pending request twice yields exactly one state
change — the first call succeeds, flips the request to Approved and appends
exactly one approval audit entry (and no DigitalSignature row, since the
implementation only re-verifies the password) — and the second call,
whoever makes it, fails with a domain error and changes nothing at all. -/
theorem C4_approve_idempotence (actor actor2 : Actor) (now now2 : Nat) (db : Db)
    (hp : db.req.status = .pending) :
    (approve_request actor now db).1 = .ok ∧
    (approve_request actor now db).2.req.status = .approved ∧
    (∃ e, e.action = .approvedA ∧
      (approve_request actor now db).2.audits = db.audits ++ [e]) ∧
    (approve_request actor now db).2.signatures = db.signatures ∧
    (approve_request actor now db).2.crate = db.crate ∧
    (approve_request actor now db).2.sendbacks = db.sendbacks ∧
    (∃ m, (approve_request actor2 now2 (approve_request actor now db).2).1 =
      .badRequest m) ∧
    (approve_request actor2 now2 (approve_request actor now db).2).2 =
      (approve_request actor now db).2 := by
  have h1 : approve_request actor now db =
      (.ok, runSteps (approveSteps actor now) db) := by
    simp [approve_request, hp]
  have hstat : (runSteps (approveSteps actor now) db).req.status = .approved := by
    simp [runSteps, approveSteps]
  refine ⟨by simp [h1], by simp [h1, hstat], ?_, ?_, ?_, ?_, ?_, ?_⟩
  · have he : (approve_request actor now db).2.audits = db.audits ++
        [log_request_approved actor
          { db.req with
              status := RequestStatus.approved,
              approved_by := some actor.id,
              approval_date := some now }
          db.crate.id] := by
      simp [h1, runSteps, approveSteps]
    refine ⟨_, ?_, he⟩
    rfl
  · simp [h1, runSteps, approveSteps]
  · simp [h1, runSteps, approveSteps]
  · simp [h1, runSteps, approveSteps]
  · rw [h1]
    simp [approve_request, hstat]
  · rw [h1]
    simp [approve_request, hstat]

/-- Witness for the amended C4 at a concrete Pending storage request. -/
theorem C4_approve_idempotence_witness :
    (approve_request ⟨1, "A"⟩ 5 (mkDb .storage .pending .active)).1 = .ok ∧
    (approve_request ⟨2, "B"⟩ 6 (approve_request ⟨1, "A"⟩ 5 (mkDb .storage .pending .active)).2).2 =
      (approve_request ⟨1, "A"⟩ 5 (mkDb .storage .pending .active)).2 := by
  have h := C4_approve_idempotence ⟨1, "A"⟩ ⟨2, "B"⟩ 5 6 (mkDb .storage .pending .active)
    (by decide)
  exact ⟨h.1, h.2.2.2.2.2.2.2⟩

/-- C6: creating a Withdrawal request on an Active or Archived crate
succeeds, immediately sets the crate to Withdrawn (before any approval) and
records the new request as Pending; on a crate in any other status the
creation fails and changes nothing; and rejecting a still-unissued
(Pending or Sent Back) Withdrawal request whose crate is Withdrawn
succeeds and reverts the crate to Active. -/
theorem C6_withdrawal_crate_cycle (actor : Actor) (newId : Nat)
    (inp : WithdrawalInput) (reason : String) (cdb : CreateDb) (db : Db) :
    ((cdb.crate.status = .active ∨ cdb.crate.status = .archived) →
      (create_withdrawal_request actor newId inp cdb).1 = .ok ∧
      (create_withdrawal_request actor newId inp cdb).2.crate.status = .withdrawn ∧
      (∃ r, (create_withdrawal_request actor newId inp cdb).2.reqs = cdb.reqs ++ [r] ∧
        r.status = .pending ∧ r.request_type = .withdrawal)) ∧
    (¬ (cdb.crate.status = .active ∨ cdb.crate.status = .archived) →
      (∃ m, (create_withdrawal_request actor newId inp cdb).1 = .badRequest m) ∧
      (create_withdrawal_request actor newId inp cdb).2 = cdb) ∧
    (db.req.request_type = .withdrawal →
      (db.req.status = .pending ∨ db.req.status = .sentBack) →
      db.crate.status = .withdrawn →
      (reject_request actor reason db).1 = .ok ∧
      (reject_request actor reason db).2.crate.status = .active ∧
      (reject_request actor reason db).2.req.status = .rejected) := by
  refine ⟨?_, ?_, ?_⟩
  · intro hc
    have hr : (create_withdrawal_request actor newId inp cdb).2.reqs = cdb.reqs ++
        [{ id := newId,
           request_type := RequestType.withdrawal,
           status := RequestStatus.pending,
           approved_by := none, approval_date := none,
           allocated_by := none, allocation_date := none,
           issued_by := none, issue_date := none, return_date := none,
           withdrawn_by := some actor.id,
           expected_return_date := inp.expected_return_date,
           full_withdrawal := inp.full_withdrawal,
           purpose := inp.purpose }] := by
      simp [create_withdrawal_request, hc]
    exact ⟨by simp [create_withdrawal_request, hc],
      by simp [create_withdrawal_request, hc], ⟨_, hr, rfl, rfl⟩⟩
  · intro hc
    simp [create_withdrawal_request, hc]
  · intro hT hS hW
    simp [reject_request, hS, runSteps, rejectSteps, hT, hW]

/-- Witness for C6: a concrete Active crate becomes Withdrawn on
withdrawal creation; a concrete Destroyed crate cannot get one; rejecting
a concrete pending withdrawal reverts its Withdrawn crate to Active. -/
theorem C6_withdrawal_crate_cycle_witness :
    (create_withdrawal_request ⟨3, "U"⟩ 21 ⟨"why", true, some 30⟩ (mkCDb .active)).2.crate.status = .withdrawn ∧
    (create_withdrawal_request ⟨3, "U"⟩ 21 ⟨"why", true, some 30⟩ (mkCDb .destroyed)).2 = mkCDb .destroyed ∧
    (reject_request ⟨1, "A"⟩ "no" (mkDb .withdrawal .pending .withdrawn)).2.crate.status = .active := by
  refine ⟨?_, ?_, ?_⟩
  · exact ((C6_withdrawal_crate_cycle ⟨3, "U"⟩ 21 ⟨"why", true, some 30⟩ "x"
      (mkCDb .active) (mkDb .withdrawal .pending .withdrawn)).1 (by decide)).2.1
  · exact ((C6_withdrawal_crate_cycle ⟨3, "U"⟩ 21 ⟨"why", true, some 30⟩ "x"
      (mkCDb .destroyed) (mkDb .withdrawal .pending .withdrawn)).2.1 (by decide)).2
  · exact ((C6_withdrawal_crate_cycle ⟨3, "U"⟩ 21 ⟨"why", true, some 30⟩ "no"
      (mkCDb .active) (mkDb .withdrawal .pending .withdrawn)).2.2 (by decide) (by decide) (by decide)).2.1

/-- Counterexample to C2 as stated: deleting a concrete persisted
DigitalSignature row does not fail — DigitalSignature overrides save but
not delete, so the inherited Model.delete removes the row and raises
nothing, while the claim requires every delete attempt on a SignatureRecord
to raise. -/
theorem C2_counterexample :
    exSigRecord.pk.isSome = true ∧
    signature_delete [exSigRecord] exSigRecord = .ok [] := by
  exact ⟨rfl, rfl⟩

/-- C2 amended: updates of persisted AuditTrail and DigitalSignature rows
and deletes of AuditTrail rows all raise and leave the stored table
unchanged; but a delete of a persisted DigitalSignature row does not fail —
it succeeds and removes the row, because the model defines no delete
override. -/
theorem C2_immutability (h : String → String) (newPk now : Nat)
    (atbl : List AuditTrailRec) (a : AuditTrailRec)
    (stbl : List SigRecord) (s : SigRecord)
    (ha : a.pk.isSome = true) (hs : s.pk.isSome = true) :
    (∃ e, audit_trail_save newPk atbl a = .error e) ∧
    (∃ e, audit_trail_delete atbl a = .error e) ∧
    (∃ e, signature_table_save h newPk now stbl s = .error e) ∧
    (∃ tbl, signature_delete stbl s = .ok tbl ∧
      tbl = stbl.filter (fun x => x.pk != s.pk)) := by
  refine ⟨?_, ⟨_, rfl⟩, ?_, ⟨_, rfl, rfl⟩⟩
  · exact ⟨"Audit trail records cannot be modified once created (21 CFR Part 11 compliance)",
      by simp [audit_trail_save, ha]⟩
  · exact ⟨"Digital signatures are immutable and cannot be modified after creation",
      by simp [signature_table_save, signature_save, hs]⟩

/-- Witness for the amended C2 at concrete persisted audit and signature
rows. -/
theorem C2_immutability_witness :
    (∃ e, audit_trail_save 10 [exAuditRec] exAuditRec = .error e) ∧
    (∃ tbl, signature_delete [exSigRecord] exSigRecord = .ok tbl ∧
      tbl = [exSigRecord].filter (fun x => x.pk != exSigRecord.pk)) := by
  have h := C2_immutability (fun s => s) 10 55 [exAuditRec] exAuditRec
    [exSigRecord] exSigRecord rfl rfl
  exact ⟨h.1, h.2.2.2⟩

/-- Counterexample to C5 as stated: approve_request is not wrapped in
transaction.atomic, so the state in which only its first write (the request
save) has committed is a reachable post-state; at a concrete Pending
request that state has the request changed to Approved while the audit
table is still empty — a state change without its audit record. -/
theorem C5_counterexample :
    partialRun (approveSteps ⟨1, "A"⟩ 5) 1 (mkDb .storage .pending .active) ∈
      commitStates approveWrapsWrites (approveSteps ⟨1, "A"⟩ 5)
        (mkDb .storage .pending .active) ∧
    (partialRun (approveSteps ⟨1, "A"⟩ 5) 1 (mkDb .storage .pending .active)).req ≠
      (mkDb .storage .pending .active).req ∧
    (partialRun (approveSteps ⟨1, "A"⟩ 5) 1 (mkDb .storage .pending .active)).audits =
      (mkDb .storage .pending .active).audits := by
  refine ⟨by decide, by decide, by decide⟩

/-- C5 amended: only the creation endpoints wrap their writes in a
transaction (create_withdrawal_request does; its commit states are
all-or-nothing), while approve, reject, send-back, allocate, issue, return
and confirm-destruction do not; consequently, for approve_request on any
Pending request and for allocate_storage on any Approved request, a commit
state is reachable in which the request row has changed but no audit entry
was appended. -/
theorem C5_transaction_boundaries (actor : Actor) (now sid : Nat) (db : Db) :
    createWithdrawalWrapsWrites = true ∧
    approveWrapsWrites = false ∧ rejectWrapsWrites = false ∧
    sendBackWrapsWrites = false ∧ allocateWrapsWrites = false ∧
    issueWrapsWrites = false ∧ returnWrapsWrites = false ∧
    confirmDestructionWrapsWrites = false ∧
    (∀ steps d, commitStates true steps d = [d, runSteps steps d]) ∧
    (db.req.status = .pending →
      approve_request actor now db = (.ok, runSteps (approveSteps actor now) db) ∧
      partialRun (approveSteps actor now) 1 db ∈
        commitStates approveWrapsWrites (approveSteps actor now) db ∧
      (partialRun (approveSteps actor now) 1 db).req ≠ db.req ∧
      (partialRun (approveSteps actor now) 1 db).audits = db.audits) ∧
    (db.req.status = .approved → sid ∈ db.storages →
      allocate_storage actor now sid db =
        (.ok, runSteps (allocateSteps actor now sid) db) ∧
      partialRun (allocateSteps actor now sid) 2 db ∈
        commitStates allocateWrapsWrites (allocateSteps actor now sid) db ∧
      (partialRun (allocateSteps actor now sid) 2 db).req ≠ db.req ∧
      (partialRun (allocateSteps actor now sid) 2 db).audits = db.audits) := by
  refine ⟨rfl, rfl, rfl, rfl, rfl, rfl, rfl, rfl, ?_, ?_, ?_⟩
  · intro steps d
    simp [commitStates]
  · intro hp
    refine ⟨by simp [approve_request, hp], ?_, ?_, ?_⟩
    · simp only [commitStates, approveWrapsWrites, if_neg Bool.false_ne_true]
      exact List.mem_map_of_mem _ (by simp [approveSteps])
    · intro hEq
      have hst := congrArg RequestRow.status hEq
      simp [partialRun, runSteps, approveSteps] at hst
      rw [hp] at hst
      exact absurd hst (by decide)
    · simp [partialRun, runSteps, approveSteps]
  · intro hp hsid
    refine ⟨by simp [allocate_storage, hp, hsid], ?_, ?_, ?_⟩
    · simp only [commitStates, allocateWrapsWrites, if_neg Bool.false_ne_true]
      exact List.mem_map_of_mem _ (by simp [allocateSteps])
    · intro hEq
      have hst := congrArg RequestRow.status hEq
      simp [partialRun, runSteps, allocateSteps] at hst
      rw [hp] at hst
      exact absurd hst (by decide)
    · simp [partialRun, runSteps, allocateSteps]

/-- Witness for the amended C5 at a concrete Pending and a concrete
Approved request. -/
theorem C5_transaction_boundaries_witness :
    (partialRun (approveSteps ⟨1, "A"⟩ 5) 1 (mkDb .storage .pending .active)).req ≠
      (mkDb .storage .pending .active).req ∧
    (partialRun (allocateSteps ⟨2, "B"⟩ 6 5) 2 (mkDb .storage .approved .active)).audits =
      (mkDb .storage .approved .active).audits := by
  have h1 := C5_transaction_boundaries ⟨1, "A"⟩ 5 5 (mkDb .storage .pending .active)
  have h2 := C5_transaction_boundaries ⟨2, "B"⟩ 6 5 (mkDb .storage .approved .active)
  exact ⟨(h1.2.2.2.2.2.2.2.2.2.1 (by decide)).2.2.1,
    (h2.2.2.2.2.2.2.2.2.2.2 (by decide) (by decide)).2.2.2⟩

/-- Appending a common string on the left cancels. -/
theorem str_append_left_cancel {a x y : String} (hh : a ++ x = a ++ y) : x = y := by
  apply String.ext
  have hd := congrArg String.data hh
  simp only [String.data_append] at hd
  exact List.append_cancel_left hd

/-- Appending a common string on the right cancels. -/
theorem str_append_right_cancel {x y a : String} (hh : x ++ a = y ++ a) : x = y := by
  apply String.ext
  have hd := congrArg String.data hh
  simp only [String.data_append] at hd
  exact List.append_cancel_right hd

/-- digitChar and digitVal are inverse on decimal digits. -/
theorem digitVal_digitChar (d : Nat) (hd : d < 10) : digitVal (digitChar d) = d := by
  interval_cases d <;> rfl

/-- parseVal runs left to right over an append. -/
theorem parseVal_append (l₁ l₂ : List Char) (acc : Nat) :
    parseVal (l₁ ++ l₂) acc = parseVal l₂ (parseVal l₁ acc) := by
  simp [parseVal, List.foldl_append]

/-- Parsing the decimal rendering of a natural number recovers it. -/
theorem natRepr_parse (n : Nat) : parseVal (natRepr n) 0 = n := by
  induction n using Nat.strong_induction_on with
  | _ n ih =>
    rw [natRepr]
    by_cases hn : n < 10
    · simp [hn, parseVal, digitVal_digitChar n hn]
    · simp only [hn, dite_false]
      have ihd := ih (n / 10) (Nat.div_lt_self (by omega) (by omega))
      rw [parseVal_append, ihd]
      simp [parseVal, digitVal_digitChar (n % 10) (Nat.mod_lt n (by omega))]
      omega

/-- The decimal rendering of natural numbers is injective. -/
theorem natRepr_injective {m n : Nat} (hh : natRepr m = natRepr n) : m = n := by
  have h1 := congrArg (fun l => parseVal l 0) hh
  simpa [natRepr_parse] using h1

/-- The string form of the decimal rendering is injective. -/
theorem natS_injective {m n : Nat} (hh : natS m = natS n) : m = n := by
  apply natRepr_injective
  have hd := congrArg String.data hh
  simpa [natS] using hd

/-- Every character of the plain decimal rendering is a decimal digit
character. -/
theorem natRepr_digits (n : Nat) : ∀ c ∈ natRepr n, ∃ d, d < 10 ∧ c = digitChar d := by
  induction n using Nat.strong_induction_on with
  | _ n ih =>
    rw [natRepr]
    by_cases hn : n < 10
    · simp only [hn, dite_true, List.mem_singleton]
      intro c hc
      exact ⟨n, hn, hc⟩
    · simp only [hn, dite_false]
      intro c hc
      rcases List.mem_append.mp hc with hc | hc
      · exact ih (n / 10) (Nat.div_lt_self (by omega) (by omega)) c hc
      · refine ⟨n % 10, Nat.mod_lt n (by omega), ?_⟩
        simpa using hc

/-- The decimal rendering of a number is never the string None. -/
theorem natS_ne_None (n : Nat) : natS n ≠ "None" := by
  intro hh
  have hd : natRepr n = ['N', 'o', 'n', 'e'] := by
    have := congrArg String.data hh
    simpa [natS] using this
  have hN : 'N' ∈ natRepr n := by
    rw [hd]
    simp
  obtain ⟨d, hdlt, hcd⟩ := natRepr_digits n 'N' hN
  interval_cases d <;> simp_all [digitChar]

/-- Two signature records that agree on every hashed field except the
timestamp, whose renderings differ, have different signature strings. -/
theorem sigString_ne_of_ts {r₁ r₂ : SigRecord}
    (h1 : r₁.signer_username = r₂.signer_username)
    (h2 : r₁.signer_full_name = r₂.signer_full_name)
    (h3 : r₁.signer_role = r₂.signer_role)
    (h4 : r₁.signature_type = r₂.signature_type)
    (h5 : r₁.signed_model = r₂.signed_model)
    (h6 : r₁.signed_record_id = r₂.signed_record_id)
    (h7 : r₁.data_hash = r₂.data_hash)
    (ht : strOfTimestamp r₁.signature_timestamp ≠ strOfTimestamp r₂.signature_timestamp) :
    sigString r₁ ≠ sigString r₂ := by
  intro hh
  apply ht
  simp only [sigString, h1, h2, h3, h4, h5, h6, h7, String.append_assoc] at hh
  exact str_append_right_cancel (str_append_left_cancel (str_append_left_cancel
    (str_append_left_cancel (str_append_left_cancel (str_append_left_cancel
    (str_append_left_cancel (str_append_left_cancel (str_append_left_cancel hh))))))))

/-- verify_integrity returns exactly the signature-hash-mismatch failure
when the data hash checks out but the recomputed signature hash disagrees
with the stored one. -/
theorem verify_eq_sig_mismatch (h : String → String) (r : SigRecord)
    (hdata : h (dumps r.signature_data) = r.data_hash)
    (hsig : h (sigString r) ≠ r.signature_hash) :
    verify_integrity h r =
      (false, "Signature hash mismatch - signature has been altered") := by
  simp [verify_integrity, hdata, hsig]

/-- A fresh DigitalSignature.save stores a signature_hash binding the
pre-save state, whose auto_now_add timestamp is still None, while the row
it persists carries the assigned timestamp; so the recomputation in
verify_integrity can never match. -/
theorem signature_save_fresh_fails (h : String → String) (newPk now : Nat)
    (r : SigRecord) (hinj : Function.Injective h)
    (hts : r.signature_timestamp = none)
    (hdh : r.data_hash = h (dumps r.signature_data)) :
    ∀ rec, signature_save h newPk now r = .ok rec →
      verify_integrity h rec =
        (false, "Signature hash mismatch - signature has been altered") := by
  intro rec hrec
  by_cases hpk : r.pk.isSome
  · simp [signature_save, hpk] at hrec
  · simp only [signature_save, hpk, Bool.false_eq_true, if_false, Except.ok.injEq] at hrec
    subst hrec
    apply verify_eq_sig_mismatch
    · exact hdh.symm
    · have hne : sigString
          { r with signature_hash := h (sigString r), pk := some newPk,
                   signature_timestamp := some now } ≠ sigString r := by
        refine sigString_ne_of_ts rfl rfl rfl rfl rfl rfl rfl ?_
        rw [hts]
        simp only [strOfTimestamp]
        exact natS_ne_None now
      exact hinj.ne hne

/-- C1 (claim right, code wrong): the claimed round trip
VerifyIntegrity(Sign(...)) = valid fails on the code. create_signature
never sets the auto_now_add signature_timestamp, so DigitalSignature.save
hashes a signature string containing the text None and then persists the
real timestamp; verify_integrity recomputes from the stored timestamp, so
for every collision-free hash (Function.Injective h idealizes sha256)
every freshly created signature is reported as a signature-hash mismatch,
never as valid. -/
theorem C1_fresh_signature_fails_verification (h : String → String) (user : SUser)
    (stype purpose smodel : String) (srid : Nat) (sdata : List (String × String))
    (desc : String) (ts newPk : Nat) (hinj : Function.Injective h) :
    ∀ rec, create_signature h user stype purpose smodel srid sdata desc ts newPk = .ok rec →
      verify_integrity h rec =
        (false, "Signature hash mismatch - signature has been altered") := by
  intro rec hrec
  exact signature_save_fresh_fails h newPk ts _ hinj rfl rfl rec hrec

/-- Witness for C1 with the identity function as the (injective) hash: the
concrete fresh record fails verification with the signature-hash-mismatch
message. -/
theorem C1_fresh_signature_fails_verification_witness :
    ∃ rec, create_signature (fun s => s) ⟨"jdoe", "J Doe", some "Section Head", "j@x.io"⟩
        "APPROVE" "approve request 7" "Request" 7 [("status", "Approved")] "req 7" 99 1 =
        .ok rec ∧
      verify_integrity (fun s => s) rec =
        (false, "Signature hash mismatch - signature has been altered") := by
  refine ⟨_, rfl, ?_⟩
  exact C1_fresh_signature_fails_verification (fun s => s)
    ⟨"jdoe", "J Doe", some "Section Head", "j@x.io"⟩
    "APPROVE" "approve request 7" "Request" 7 [("status", "Approved")] "req 7" 99 1
    (fun a b hab => hab) _ rfl

/-- lexLt is irreflexive. -/
theorem lexLt_irrefl (a : List Char) : lexLt a a = false := by
  induction a with
  | nil => rfl
  | cons c t ih => simp [lexLt, lt_irrefl, ih]

/-- lexLt is transitive. -/
theorem lexLt_trans : ∀ {a b c : List Char},
    lexLt a b = true → lexLt b c = true → lexLt a c = true
  | [], _ :: _, _ :: _, _, _ => rfl
  | x :: xs, y :: ys, z :: zs, h1, h2 => by
    simp only [lexLt] at h1 h2 ⊢
    by_cases hxy : x < y
    · by_cases hyz : y < z
      · simp [lt_trans hxy hyz]
      · by_cases hzy : z < y
        · simp [hyz, hzy] at h2
        · have : y = z := le_antisymm (not_lt.mp hzy) (not_lt.mp hyz)
          subst this
          simp [hxy]
    · by_cases hyx : y < x
      · simp [hxy, hyx] at h1
      · have : x = y := le_antisymm (not_lt.mp hyx) (not_lt.mp hxy)
        subst this
        simp only [lt_irrefl, if_false] at h1 ⊢
        by_cases hxz : x < z
        · simp [hxz]
        · by_cases hzx : z < x
          · simp [hxz, hzx] at h2
          · simp only [hxz, hzx, if_false] at h2 ⊢
            exact lexLt_trans (by simpa [lt_irrefl] using h1) (by simpa using h2)

/-- Two lists neither of which is lexicographically below the other are
equal. -/
theorem lexLt_antisymm : ∀ {a b : List Char},
    lexLt a b = false → lexLt b a = false → a = b
  | [], [], _, _ => rfl
  | [], _ :: _, h1, _ => by simp [lexLt] at h1
  | _ :: _, [], _, h2 => by simp [lexLt] at h2
  | x :: xs, y :: ys, h1, h2 => by
    simp only [lexLt] at h1 h2
    by_cases hxy : x < y
    · simp [hxy] at h1
    · by_cases hyx : y < x
      · simp [hxy, hyx] at h2
      · have hx : x = y := le_antisymm (not_lt.mp hyx) (not_lt.mp hxy)
        subst hx
        simp only [lt_irrefl, if_false] at h1 h2
        exact congrArg (x :: ·) (lexLt_antisymm h1 h2)

/-- A common head does not affect lexLt on cons. -/
theorem lexLt_cons_same (c : Char) (x y : List Char) :
    lexLt (c :: x) (c :: y) = lexLt x y := by
  simp [lexLt, lt_irrefl]

/-- A common left factor does not affect lexLt. -/
theorem lexLt_append_same (p x y : List Char) :
    lexLt (p ++ x) (p ++ y) = lexLt x y := by
  induction p with
  | nil => rfl
  | cons c t ih => simpa [lexLt_cons_same] using ih

/-- The fold underlying maxAgg yields an element of the list. -/
theorem foldl_max_mem : ∀ (bs : List (List Char)) (b : List Char),
    bs.foldl (fun acc x => if lexLt acc x then x else acc) b ∈ b :: bs
  | [], b => by simp
  | x :: bs, b => by
    have h := foldl_max_mem bs (if lexLt b x then x else b)
    simp only [List.foldl_cons]
    rcases List.mem_cons.mp h with h1 | h1
    · rw [h1]
      by_cases hbx : lexLt b x
      · simp [hbx]
      · simp [hbx]
    · simp [h1]

/-- The fold underlying maxAgg is not lexicographically below any element
it has seen. -/
theorem foldl_max_not_lt : ∀ (bs : List (List Char)) (b x : List Char),
    x ∈ b :: bs →
    lexLt (bs.foldl (fun acc x => if lexLt acc x then x else acc) b) x = false
  | [], b, x, hx => by
    simp only [List.foldl_nil]
    have hxb : x = b := by simpa using hx
    rw [hxb]
    exact lexLt_irrefl b
  | y :: bs, b, x, hx => by
    simp only [List.foldl_cons]
    by_cases hby : lexLt b y
    · rw [if_pos hby]
      rcases List.mem_cons.mp hx with h1 | h1
      · subst h1
        by_cases hres : lexLt (bs.foldl (fun acc x => if lexLt acc x then x else acc) y) x
        · have hy : lexLt (bs.foldl (fun acc x => if lexLt acc x then x else acc) y) y = false :=
            foldl_max_not_lt bs y y (by simp)
          have := lexLt_trans hres hby
          rw [this] at hy
          exact absurd hy (by simp)
        · simpa using hres
      · exact foldl_max_not_lt bs y x h1
    · rw [if_neg hby]
      rcases List.mem_cons.mp hx with h1 | h1
      · subst h1
        exact foldl_max_not_lt bs x x (by simp)
      · rcases List.mem_cons.mp h1 with h2 | h2
        · subst h2
          have hb : lexLt (bs.foldl (fun acc x => if lexLt acc x then x else acc) b) b = false :=
            foldl_max_not_lt bs b b (by simp)
          by_cases hres : lexLt (bs.foldl (fun acc x => if lexLt acc x then x else acc) b) x
          · by_cases hxb : lexLt x b
            · have := lexLt_trans hres hxb
              rw [this] at hb
              exact absurd hb (by simp)
            · have hbx : lexLt b x = false := by simpa using hby
              have hxb2 : lexLt x b = false := by simpa using hxb
              have : b = x := lexLt_antisymm hbx hxb2
              subst this
              rw [hres] at hb
              exact absurd hb (by simp)
          · simpa using hres
        · exact foldl_max_not_lt bs b x (List.mem_cons_of_mem b h2)

/-- The Max aggregate of a non-empty list of values is one of them. -/
theorem maxAgg_mem {l : List (List Char)} {r : List Char}
    (hr : maxAgg l = some r) : r ∈ l := by
  cases l with
  | nil => simp [maxAgg] at hr
  | cons b bs =>
    simp only [maxAgg, Option.some.injEq] at hr
    subst hr
    exact foldl_max_mem bs b

/-- No value in the list is lexicographically above the Max aggregate. -/
theorem maxAgg_not_lt {l : List (List Char)} {r : List Char}
    (hr : maxAgg l = some r) : ∀ x ∈ l, lexLt r x = false := by
  cases l with
  | nil => simp [maxAgg] at hr
  | cons b bs =>
    simp only [maxAgg, Option.some.injEq] at hr
    subst hr
    intro x hx
    exact foldl_max_not_lt bs b x hx

/-- digitChar is strictly monotone on decimal digits. -/
theorem digitChar_lt_digitChar {d₁ d₂ : Nat} (h1 : d₁ < d₂) (h2 : d₂ < 10) :
    digitChar d₁ < digitChar d₂ := by
  interval_cases d₂ <;> interval_cases d₁ <;> decide

/-- Fixed-width decimal rendering is strictly monotone in the value. -/
theorem digitsFix_lt : ∀ (len : Nat) {a b : Nat}, a < b → b < 10 ^ len →
    lexLt (digitsFix len a) (digitsFix len b) = true
  | 0, a, b, hab, hb => by
    simp at hb
    omega
  | len + 1, a, b, hab, hb => by
    simp only [digitsFix]
    have hdle : a / 10 ^ len ≤ b / 10 ^ len := Nat.div_le_div_right (le_of_lt hab)
    have hbd : b / 10 ^ len < 10 := by
      rw [Nat.div_lt_iff_lt_mul (Nat.pos_pow_of_pos len (by omega))]
      calc b < 10 ^ (len + 1) := hb
        _ = 10 * 10 ^ len := by ring
        _ ≤ 10 * 10 ^ len := le_refl _
    rcases Nat.lt_or_ge (a / 10 ^ len) (b / 10 ^ len) with hlt | hge
    · have := digitChar_lt_digitChar hlt hbd
      simp [lexLt, this]
    · have hdeq : a / 10 ^ len = b / 10 ^ len := le_antisymm hdle hge
      rw [hdeq, lexLt_cons_same]
      have hpow : 0 < 10 ^ len := Nat.pos_pow_of_pos len (by omega)
      have hmod : a % 10 ^ len < b % 10 ^ len := by
        have hda := Nat.div_add_mod a (10 ^ len)
        have hdb := Nat.div_add_mod b (10 ^ len)
        rw [hdeq] at hda
        omega
      exact digitsFix_lt len hmod (Nat.mod_lt b hpow)

/-- Every character of a fixed-width decimal rendering is a decimal digit
character. -/
theorem digitsFix_digits : ∀ (len n : Nat), n < 10 ^ len →
    ∀ c ∈ digitsFix len n, ∃ d, d < 10 ∧ c = digitChar d
  | 0, n, _, c, hc => by simp [digitsFix] at hc
  | len + 1, n, hn, c, hc => by
    simp only [digitsFix, List.mem_cons] at hc
    rcases hc with hc | hc
    · refine ⟨n / 10 ^ len, ?_, hc⟩
      rw [Nat.div_lt_iff_lt_mul (Nat.pos_pow_of_pos len (by omega))]
      calc n < 10 ^ (len + 1) := hn
        _ = 10 * 10 ^ len := by ring
    · exact digitsFix_digits len (n % 10 ^ len)
        (Nat.mod_lt n (Nat.pos_pow_of_pos len (by omega))) c hc

/-- Parsing a fixed-width decimal rendering recovers the value. -/
theorem parse_digitsFix : ∀ (len : Nat) {n : Nat} (acc : Nat), n < 10 ^ len →
    parseVal (digitsFix len n) acc = acc * 10 ^ len + n
  | 0, n, acc, hn => by
    simp at hn
    simp [digitsFix, parseVal, hn]
  | len + 1, n, acc, hn => by
    have hpow : 0 < 10 ^ len := Nat.pos_pow_of_pos len (by omega)
    have hd : n / 10 ^ len < 10 := by
      rw [Nat.div_lt_iff_lt_mul hpow]
      calc n < 10 ^ (len + 1) := hn
        _ = 10 * 10 ^ len := by ring
    have hstep : parseVal (digitsFix (len + 1) n) acc =
        parseVal (digitsFix len (n % 10 ^ len)) (10 * acc + n / 10 ^ len) := by
      simp [digitsFix, parseVal, digitVal_digitChar _ hd]
    rw [hstep, parse_digitsFix len (10 * acc + n / 10 ^ len) (Nat.mod_lt n hpow)]
    have hdm := Nat.div_add_mod n (10 ^ len)
    have hexp : (10 * acc + n / 10 ^ len) * 10 ^ len + n % 10 ^ len
        = acc * (10 * 10 ^ len) + (10 ^ len * (n / 10 ^ len) + n % 10 ^ len) := by ring
    rw [hexp, hdm]
    ring

/-- A decimal digit character passes isDigitCh. -/
theorem isDigitCh_digitChar {d : Nat} (hd : d < 10) :
    isDigitCh (digitChar d) = true := by
  interval_cases d <;> decide

/-- A decimal digit character is not the barcode separator. -/
theorem digitChar_ne_slash {d : Nat} (hd : d < 10) : digitChar d ≠ '/' := by
  interval_cases d <;> decide

/-- Python's int() applied to a five-digit zero-padded rendering recovers
the value. -/
theorem pyInt_format05 {n : Nat} (hn : n < 100000) :
    pyInt? (format05 n) = some n := by
  have h5 : n < 10 ^ 5 := by norm_num; omega
  have hform : format05 n = digitsFix 5 n := by simp [format05, hn]
  rw [hform]
  have hne : digitsFix 5 n ≠ [] := by simp [digitsFix]
  have hall : (digitsFix 5 n).all isDigitCh = true := by
    rw [List.all_eq_true]
    intro c hc
    obtain ⟨d, hd, hcd⟩ := digitsFix_digits 5 n h5 c hc
    rw [hcd]
    exact isDigitCh_digitChar hd
  have hparse := parse_digitsFix 5 (n := n) 0 h5
  simp only [pyInt?, hall, Bool.and_true]
  rw [if_pos]
  · rw [hparse]
    simp
  · simp [List.isEmpty_eq_true, hne]

/-- No character of a five-digit zero-padded rendering is the separator. -/
theorem format05_no_slash {n : Nat} (hn : n < 100000) :
    ∀ c ∈ format05 n, c ≠ '/' := by
  have h5 : n < 10 ^ 5 := by norm_num; omega
  intro c hc
  rw [show format05 n = digitsFix 5 n from by simp [format05, hn]] at hc
  obtain ⟨d, hd, hcd⟩ := digitsFix_digits 5 n h5 c hc
  rw [hcd]
  exact digitChar_ne_slash hd

/-- splitCh never returns the empty list. -/
theorem splitCh_ne_nil (sep : Char) : ∀ (l : List Char), splitCh sep l ≠ []
  | [] => by simp [splitCh]
  | c :: cs => by
    simp only [splitCh]
    by_cases hc : c = sep
    · simp [hc]
    · simp only [hc, if_false]
      cases hr : splitCh sep cs with
      | nil => simp
      | cons h t => simp

/-- Splitting a list without the separator yields that single segment. -/
theorem splitCh_no_sep (sep : Char) : ∀ (l : List Char),
    (∀ c ∈ l, c ≠ sep) → splitCh sep l = [l]
  | [], _ => rfl
  | c :: cs, hl => by
    have hc : c ≠ sep := hl c (by simp)
    have ih := splitCh_no_sep sep cs (fun x hx => hl x (by simp [hx]))
    simp [splitCh, hc, ih]

/-- getLastD of a non-empty list does not depend on the default. -/
theorem getLastD_of_ne_nil {l : List (List Char)} (hne : l ≠ []) (d d' : List Char) :
    List.getLastD l d = List.getLastD l d' := by
  cases l with
  | nil => exact absurd rfl hne
  | cons a t =>
    rw [List.getLastD_eq_getLast?, List.getLastD_eq_getLast?,
      List.getLast?_eq_getLast (a :: t) (by simp)]
    rfl

/-- The last segment of a cons is the last segment of the non-empty tail. -/
theorem lastSeg_cons_of_ne_nil {r : List (List Char)} (hne : r ≠ []) (a : List Char) :
    lastSeg (a :: r) = lastSeg r := by
  simp only [lastSeg, List.getLastD_cons]
  exact getLastD_of_ne_nil hne a []

/-- A list containing the separator splits into at least two segments. -/
theorem splitCh_length_two (sep : Char) : ∀ (xs ys : List Char),
    2 ≤ (splitCh sep (xs ++ sep :: ys)).length
  | [], ys => by
    simp only [List.nil_append, splitCh, if_pos rfl, List.length_cons]
    have := splitCh_ne_nil sep ys
    cases h : splitCh sep ys with
    | nil => exact absurd h this
    | cons a t => simp
  | x :: xs, ys => by
    simp only [List.cons_append, splitCh]
    by_cases hx : x = sep
    · simp only [hx, if_pos rfl, List.length_cons]
      have := splitCh_ne_nil sep (xs ++ sep :: ys)
      cases h : splitCh sep (xs ++ sep :: ys) with
      | nil => exact absurd h this
      | cons a t => simp
    · simp only [hx, if_false]
      have ih := splitCh_length_two sep xs ys
      cases h : splitCh sep (xs ++ sep :: ys) with
      | nil => exact absurd h (splitCh_ne_nil sep _)
      | cons a t =>
        rw [h] at ih
        simpa using ih

/-- The last segment of splitting a list that ends in separator-free `ys`
after a separator is `ys`. -/
theorem lastSeg_splitCh (sep : Char) : ∀ (xs ys : List Char),
    (∀ c ∈ ys, c ≠ sep) →
    lastSeg (splitCh sep (xs ++ sep :: ys)) = ys
  | [], ys, hys => by
    simp only [List.nil_append, splitCh, if_pos rfl]
    rw [splitCh_no_sep sep ys hys]
    rfl
  | x :: xs, ys, hys => by
    simp only [List.cons_append, splitCh]
    by_cases hx : x = sep
    · rw [if_pos hx, lastSeg_cons_of_ne_nil (splitCh_ne_nil sep _) []]
      exact lastSeg_splitCh sep xs ys hys
    · rw [if_neg hx]
      have ih := lastSeg_splitCh sep xs ys hys
      have hlen := splitCh_length_two sep xs ys
      cases h : splitCh sep (xs ++ sep :: ys) with
      | nil => exact absurd h (splitCh_ne_nil sep _)
      | cons a t =>
        have htne : t ≠ [] := by
          rw [h] at hlen
          cases t with
          | nil => simp at hlen
          | cons b u => simp
        rw [h] at ih
        rw [lastSeg_cons_of_ne_nil htne a] at ih
        show lastSeg ((x :: a) :: t) = ys
        rw [lastSeg_cons_of_ne_nil htne (x :: a)]
        exact ih

/-- A list starts with itself followed by anything. -/
theorem startsWith_append_self : ∀ (p s : List Char), startsWith p (p ++ s) = true
  | [], _ => rfl
  | c :: p, s => by simp [startsWith, startsWith_append_self p s]

/-- The generated barcode starts with its stem and separator. -/
theorem mkBarcode_startsWith (stem : List Char) (i : Nat) :
    startsWith (stem ++ ['/']) (mkBarcode stem i) = true := by
  have hsplit : mkBarcode stem i = (stem ++ ['/']) ++ format05 i := by
    simp [mkBarcode]
  rw [hsplit]
  exact startsWith_append_self _ _

/-- The last '/'-separated segment of a generated barcode is its
zero-padded sequence number. -/
theorem mkBarcode_lastSeg {stem : List Char} {i : Nat} (hi : i < 100000) :
    lastSeg (splitCh '/' (mkBarcode stem i)) = format05 i :=
  lastSeg_splitCh '/' stem (format05 i) (format05_no_slash hi)

/-- Generated barcodes with the same stem are lexicographically ordered by
their sequence numbers. -/
theorem mkBarcode_lt {stem : List Char} {i j : Nat} (hij : i < j) (hj : j < 100000) :
    lexLt (mkBarcode stem i) (mkBarcode stem j) = true := by
  simp only [mkBarcode]
  rw [lexLt_append_same, lexLt_cons_same]
  rw [show format05 i = digitsFix 5 i from by simp [format05]; omega,
    show format05 j = digitsFix 5 j from by simp [format05]; omega]
  have h5 : j < 10 ^ 5 := by norm_num; omega
  exact digitsFix_lt 5 hij h5

/-- Generated barcodes with the same stem determine their sequence
numbers. -/
theorem mkBarcode_inj {stem : List Char} {i j : Nat} (hi : i < 100000)
    (hj : j < 100000) (hh : mkBarcode stem i = mkBarcode stem j) : i = j := by
  have h1 := congrArg (fun l => lastSeg (splitCh '/' l)) hh
  simp only [mkBarcode_lastSeg hi, mkBarcode_lastSeg hj] at h1
  have h2 := congrArg pyInt? h1
  rw [pyInt_format05 hi, pyInt_format05 hj] at h2
  simpa using h2

/-- When every crate of the saved crate's (unit, department, section)
triple either carries a barcode of the current stem — the current year's
tuple — with sequence number in 1..k (k = 0 meaning none), or carries a
barcode of some other stem (for example another year's), the sequencer
picks k + 1: rows of other years are excluded by the startswith filter and
do not feed the sequence. -/
theorem nextSequence_eq (stem : List Char) (c : BCrate) (db : List BCrate) (k : Nat)
    (hk : k < 99999)
    (hmatch : ∀ x ∈ db, sameTuple x c →
      (∃ i, 1 ≤ i ∧ i ≤ k ∧ x.barcode = mkBarcode stem i) ∨
      startsWith (stem ++ ['/']) x.barcode = false)
    (hall : ∀ i, 1 ≤ i → i ≤ k →
      ∃ x, x ∈ db ∧ sameTuple x c ∧ x.barcode = mkBarcode stem i) :
    nextSequence stem c db = k + 1 := by
  have hcondTuple : ∀ x : BCrate,
      (x.unit = c.unit && x.department = c.department && x.section_id = c.section_id &&
        startsWith (stem ++ ['/']) x.barcode) = true ↔
      (sameTuple x c ∧ startsWith (stem ++ ['/']) x.barcode = true) := by
    intro x
    simp [sameTuple, and_assoc]
  rcases Nat.eq_zero_or_pos k with hk0 | hkpos
  · subst hk0
    have hfil : db.filter (fun x =>
        x.unit = c.unit && x.department = c.department && x.section_id = c.section_id &&
        startsWith (stem ++ ['/']) x.barcode) = [] := by
      rw [List.filter_eq_nil_iff]
      intro x hx hcx
      obtain ⟨hst, hsw⟩ := (hcondTuple x).mp hcx
      rcases hmatch x hx hst with ⟨i, hi1, hi0, _⟩ | hswf
      · omega
      · rw [hswf] at hsw
        exact absurd hsw (by simp)
    simp [nextSequence, hfil, maxAgg]
  · have hkc : mkBarcode stem k ∈ (db.filter (fun x =>
        x.unit = c.unit && x.department = c.department && x.section_id = c.section_id &&
        startsWith (stem ++ ['/']) x.barcode)).map (fun x => x.barcode) := by
      obtain ⟨x, hxdb, hxt, hxb⟩ := hall k hkpos (le_refl k)
      refine List.mem_map.mpr ⟨x, ?_, hxb⟩
      refine List.mem_filter.mpr ⟨hxdb, ?_⟩
      rw [hcondTuple x]
      exact ⟨hxt, hxb ▸ mkBarcode_startsWith stem k⟩
    have hA : ∀ b ∈ (db.filter (fun x =>
        x.unit = c.unit && x.department = c.department && x.section_id = c.section_id &&
        startsWith (stem ++ ['/']) x.barcode)).map (fun x => x.barcode),
        ∃ i, 1 ≤ i ∧ i ≤ k ∧ b = mkBarcode stem i := by
      intro b hb
      obtain ⟨x, hxf, hxb⟩ := List.mem_map.mp hb
      obtain ⟨hxdb, hcx⟩ := List.mem_filter.mp hxf
      obtain ⟨hst, hsw⟩ := (hcondTuple x).mp hcx
      rcases hmatch x hxdb hst with ⟨i, hi1, hik, hxbi⟩ | hswf
      · exact ⟨i, hi1, hik, hxb ▸ hxbi⟩
      · rw [hswf] at hsw
        exact absurd hsw (by simp)
    obtain ⟨r, hr⟩ : ∃ r, maxAgg ((db.filter (fun x =>
        x.unit = c.unit && x.department = c.department && x.section_id = c.section_id &&
        startsWith (stem ++ ['/']) x.barcode)).map (fun x => x.barcode)) = some r := by
      cases hb : (db.filter (fun x =>
        x.unit = c.unit && x.department = c.department && x.section_id = c.section_id &&
        startsWith (stem ++ ['/']) x.barcode)).map (fun x => x.barcode) with
      | nil =>
        rw [hb] at hkc
        simp at hkc
      | cons a t => exact ⟨_, rfl⟩
    have hrk : r = mkBarcode stem k := by
      obtain ⟨i₀, hi₀1, hi₀k, hri⟩ := hA r (maxAgg_mem hr)
      have hnotlt := maxAgg_not_lt hr (mkBarcode stem k) hkc
      rcases Nat.lt_or_ge i₀ k with hlt | hge
      · rw [hri] at hnotlt
        rw [mkBarcode_lt hlt (by omega)] at hnotlt
        exact absurd hnotlt (by simp)
      · have : i₀ = k := by omega
        rw [hri, this]
    rw [hrk] at hr
    have hk5 : k < 100000 := by omega
    simp only [nextSequence, hr, mkBarcode_lastSeg hk5, pyInt_format05 hk5]

/-- C8: on first persistence (no barcode, no primary key) of a crate whose
exact (unit, department, section, year) tuple — the crates of the same
organisational triple whose barcodes carry the current year's stem —
currently uses exactly the sequence numbers 1..k (k = 0 when no crate of
that year-tuple exists, even if crates of the same triple from other years
are present; k below the five-digit limit), Crate.save assigns the barcode
stem/sequence with the zero-padded sequence k + 1, which is the least
sequence number not already used for that year-tuple; and a save of any
crate that already has a barcode leaves the barcode unchanged. -/
theorem C8_barcode_sequencer (year newPk k : Nat) (db : List BCrate) (c : BCrate)
    (hbar : c.barcode = []) (hpk : c.pk = none) (hk : k < 99999)
    (hmatch : ∀ x ∈ db, sameTuple x c →
      (∃ i, 1 ≤ i ∧ i ≤ k ∧ x.barcode = mkBarcode (barcodeStem c year) i) ∨
      startsWith (barcodeStem c year ++ ['/']) x.barcode = false)
    (hall : ∀ i, 1 ≤ i → i ≤ k →
      ∃ x, x ∈ db ∧ sameTuple x c ∧ x.barcode = mkBarcode (barcodeStem c year) i) :
    (crate_save year newPk db c).2.barcode = mkBarcode (barcodeStem c year) (k + 1) ∧
    (∀ x ∈ db, sameTuple x c → x.barcode ≠ mkBarcode (barcodeStem c year) (k + 1)) ∧
    (∀ j, 1 ≤ j →
      (∀ x ∈ db, sameTuple x c → x.barcode ≠ mkBarcode (barcodeStem c year) j) →
      k + 1 ≤ j) ∧
    (∀ (y2 pk2 : Nat) (db2 : List BCrate) (c2 : BCrate), c2.barcode ≠ [] →
      (crate_save y2 pk2 db2 c2).2.barcode = c2.barcode) := by
  have hnext : nextSequence (barcodeStem c year) c db = k + 1 :=
    nextSequence_eq (barcodeStem c year) c db k hk hmatch hall
  refine ⟨?_, ?_, ?_, ?_⟩
  · simp [crate_save, hbar, hpk, hnext, mkBarcode]
  · intro x hx hst hxb
    rcases hmatch x hx hst with ⟨i, hi1, hik, hxbi⟩ | hswf
    · rw [hxbi] at hxb
      have := mkBarcode_inj (by omega) (by omega) hxb
      omega
    · rw [hxb, mkBarcode_startsWith] at hswf
      exact absurd hswf (by simp)
  · intro j hj1 hunused
    by_contra hcon
    push_neg at hcon
    obtain ⟨x, hxdb, hxt, hxb⟩ := hall j hj1 (by omega)
    exact hunused x hxdb hxt hxb
  · intro y2 pk2 db2 c2 hne
    have hcond : ¬ (c2.barcode = [] ∧ c2.pk = none) := fun hc => hne hc.1
    cases hp2 : c2.pk with
    | none => simp [crate_save, hcond, hp2, hne]
    | some p => simp [crate_save, hcond, hp2, hne]

/-- The 2024 barcode of the prior-year crate does not start with the 2025
stem: the year segments differ. -/
theorem exBCratePrior_not_current_stem :
    startsWith (barcodeStem exBCrate 2025 ++ ['/']) exBCratePrior.barcode = false := by
  have h25 : natRepr 2025 = ['2', '0', '2', '5'] := by
    simp [natRepr]
    refine ⟨?_, ?_, ?_, ?_⟩ <;> decide
  have h24 : natRepr 2024 = ['2', '0', '2', '4'] := by
    simp [natRepr]
    refine ⟨?_, ?_, ?_, ?_⟩ <;> decide
  simp only [exBCratePrior, exBCrate, mkBarcode, barcodeStem, cleanName, h25, h24]
  decide

/-- Witness for C8: alongside a prior-year crate of the same triple (whose
2024-stem barcode the filter ignores), a stored 2025 crate holding
sequence 1 makes the fresh save take sequence 2; and with only the
prior-year crate present, the 2025 sequence restarts at 1. -/
theorem C8_barcode_sequencer_witness :
    (crate_save 2025 2 [exBCrateStored, exBCratePrior] exBCrate).2.barcode =
      mkBarcode (barcodeStem exBCrate 2025) 2 ∧
    (crate_save 2025 2 [exBCratePrior] exBCrate).2.barcode =
      mkBarcode (barcodeStem exBCrate 2025) 1 := by
  constructor
  · have h := C8_barcode_sequencer 2025 2 1 [exBCrateStored, exBCratePrior] exBCrate
      rfl rfl (by omega)
      (by
        intro x hx hst
        rcases List.mem_cons.mp hx with hxe | hxp
        · exact Or.inl ⟨1, by omega, by omega, by rw [hxe]; rfl⟩
        · have hxe : x = exBCratePrior := by simpa using hxp
          exact Or.inr (hxe ▸ exBCratePrior_not_current_stem))
      (by
        intro i h1 hle
        have hi1 : i = 1 := by omega
        subst hi1
        exact ⟨exBCrateStored, by simp, ⟨rfl, rfl, rfl⟩, rfl⟩)
    simpa using h.1
  · have h := C8_barcode_sequencer 2025 2 0 [exBCratePrior] exBCrate
      rfl rfl (by omega)
      (by
        intro x hx hst
        have hxe : x = exBCratePrior := by simpa using hx
        exact Or.inr (hxe ▸ exBCratePrior_not_current_stem))
      (by
        intro i h1 hle
        omega)
    simpa using h.1
